import Mathlib

/-!
# Verification of the http-common-go logging core

Shallow embedding of the repository's structured-logging core:

* `pkg/log/logger` (src/unnamed/part_006): `Logger`, `New`, `Format`,
  `Middleware` — request-id / traceparent handling, request-scoped
  log-context derivation and the two per-request log records;
* `pkg/middleware/response` (src/unnamed/part_008): `ResponseLogger`,
  `NewWriter`, `WriteHeader`, `Status`;
* `pkg/log/formatter`: `needsQuoting`, `extractPrefix`,
  `prefixFieldClashes` — the implementation file is absent from the
  source snapshot (only its tests are present), so these are modelled
  from the spec and pinned by the in-repo tests.

logrus `Entry.Data` is a Go map from string keys to heterogeneous
values; `Entry.WithFields` copies the map and inserts the new fields,
returning a fresh entry.  We model the map as an association list with
an upsert operation (`withFields`), which preserves exactly the
map semantics the claims rely on (lookup, key set, copy-on-extend).
-/

namespace HttpCommon

/-- A logrus field value: the core only ever stores strings and the
`ContentLength`/status integers in the fields the claims mention. -/
inductive FieldValue where
  | str (s : String)
  | int (n : Int)
deriving DecidableEq, Repr

/-- `logrus.Fields` / `Entry.Data`: a string-keyed map, modelled as an
association list whose insertions go through `upsert`. -/
abbrev Fields := List (String × FieldValue)

/-- Drop every binding of a key from an association list. -/
def eraseKey {α : Type} (k : String) : List (String × α) → List (String × α)
  | [] => []
  | p :: t => if p.1 = k then eraseKey k t else p :: eraseKey k t

/-- Key lookup in an association list (Go map read `m[k]`). -/
def alookup {α : Type} (k : String) : List (String × α) → Option α
  | [] => none
  | p :: t => if p.1 = k then some p.2 else alookup k t

/-- Map-style insert-or-replace on an association list: drop any existing
binding of the key, then append the new one.  This is the effect one
`data[k] = v` assignment has on a Go map. -/
def upsert {α : Type} (l : List (String × α)) (k : String) (v : α) :
    List (String × α) :=
  eraseKey k l ++ [(k, v)]

/-- `Entry.WithFields`: copy the receiver's data and insert every given
field, yielding a fresh entry (logrus copies the map; in the pure
embedding the copy is implicit). -/
def withFields (d : Fields) (fs : Fields) : Fields :=
  fs.foldl (fun acc p => upsert acc p.1 p.2) d

/-- The key set of a field map, in insertion order. -/
def fieldKeys (d : Fields) : List String := d.map (·.1)

/-- Field lookup (`Entry.Data[k]`). -/
def getField (d : Fields) (k : String) : Option FieldValue :=
  alookup k d

/-- Header lookup (`http.Header.Get`): empty string when absent. -/
def headerGet (hs : List (String × String)) (k : String) : String :=
  (alookup k hs).getD ""

/-- `*http.Request`, restricted to the data the logging core reads. -/
structure Request where
  method : String
  urlPath : String
  remoteAddr : String
  contentLength : Int
  headers : List (String × String)
deriving DecidableEq, Repr

/-- `logger.Logger`: wraps a logrus entry; `entry` is the entry's data.
The service-wide base context of the spec is the `Entry` this struct
holds. -/
structure Logger where
  entry : Fields
deriving DecidableEq, Repr

/-- `logger.New(name, version, forceColors)`: builds the base logger with
the two seed fields `service` and `version` (the returned error is
always nil in the source, so the embedding returns the logger). -/
def Logger.new (name version : String) : Logger :=
  ⟨withFields [] [("service", .str name), ("version", .str version)]⟩

/-- `Logger.Format(r)` from part_006: nil requests return immediately;
otherwise the receiver's `Entry` is REASSIGNED to an extension of itself
(`l.Entry = l.Entry.WithFields(...)`), so the returned logger is the
post-state of the receiver. -/
def Logger.format (l : Logger) (r : Option Request) : Logger :=
  match r with
  | none => l
  | some r =>
      ⟨withFields l.entry
        [("method", .str r.method),
         ("origin", .str r.remoteAddr),
         ("agent", .str (headerGet r.headers "User-Agent")),
         ("size", .int r.contentLength),
         ("resource", .str r.urlPath)]⟩

/-! ## Response wrapper (`pkg/middleware/response`, src/unnamed/part_008) -/

/-- `response.ResponseLogger`: wraps a `gin.ResponseWriter`; `underlying`
records the codes forwarded to the wrapped writer, `statusCode` is the
captured status. -/
structure ResponseLogger where
  underlying : List Int
  statusCode : Int
deriving DecidableEq, Repr

/-- `response.NewWriter(w)`: wrap a writer, initializing the captured
status to `http.StatusOK` (200). -/
def NewWriter (w : List Int) : ResponseLogger :=
  { underlying := w, statusCode := 200 }

/-- `ResponseLogger.WriteHeader(code)`: record the code (unconditionally
overwriting the previous capture) and forward it to the wrapped
writer. -/
def ResponseLogger.writeHeader (w : ResponseLogger) (code : Int) :
    ResponseLogger :=
  { underlying := w.underlying ++ [code], statusCode := code }

/-- `ResponseLogger.Status()`: the captured status code. -/
def ResponseLogger.status (w : ResponseLogger) : Int :=
  w.statusCode

/-- A sequence of `WriteHeader` calls, as issued by a downstream
handler. -/
def ResponseLogger.writeHeaders (w : ResponseLogger) (codes : List Int) :
    ResponseLogger :=
  codes.foldl ResponseLogger.writeHeader w

/-! ## Request middleware (`Logger.Middleware`, src/unnamed/part_006) -/

/-- logrus severity levels. -/
inductive LogLevel where
  | trace | debug | info | warn | error | fatal
deriving DecidableEq, Repr

/-- One emitted log record: level, message and the entry data it carries. -/
structure LogRecord where
  level : LogLevel
  message : String
  data : Fields
deriving DecidableEq, Repr

/-- The middleware's per-request timeline: its own log emissions and the
`c.Next()` invocation of the downstream handler. -/
inductive Event where
  | record (r : LogRecord)
  | handlerNext
deriving DecidableEq, Repr

/-- Lowercase hexadecimal digit, as produced by `uuid.String()`. -/
def isHexChar (c : Char) : Bool :=
  ('0' ≤ c && c ≤ '9') || ('a' ≤ c && c ≤ 'f')

/-- The shape of `uuid.New().String()`: five lowercase-hex groups of
lengths 8, 4, 4, 4, 12 joined by hyphens (36 characters in all). -/
def IsUuidString (s : String) : Prop :=
  ∃ a b c d e : List Char,
    a.length = 8 ∧ b.length = 4 ∧ c.length = 4 ∧ d.length = 4 ∧
    e.length = 12 ∧
    (∀ ch ∈ a ++ b ++ c ++ d ++ e, isHexChar ch = true) ∧
    s.data = a ++ '-' :: (b ++ '-' :: (c ++ '-' :: (d ++ '-' :: e)))

/-- `strings.ReplaceAll(s, "-", "")`. -/
def goStripHyphens (s : String) : String :=
  ⟨s.data.filter (fun c => c ≠ '-')⟩

/-- Go slice `s[:n]` (the sliced strings here are ASCII, so byte and
character indices agree). -/
def goSliceTo (s : String) (n : Nat) : String :=
  ⟨s.data.take n⟩

/-- A fresh hex identifier as the middleware builds one:
`strings.ReplaceAll(uuid.New().String(), "-", "")[:n]`. -/
def freshHexId (u : String) (n : Nat) : String :=
  goSliceTo (goStripHyphens u) n

/-- Split a character list around every occurrence of a separator
character; the Go `strings.Split` semantics for a one-character
separator (`Split("", sep) = [""]`, `Split("a-b", "-") = ["a","b"]`). -/
def splitOnChar (sep : Char) : List Char → List (List Char)
  | [] => [[]]
  | c :: cs =>
      if c = sep then [] :: splitOnChar sep cs
      else
        match splitOnChar sep cs with
        | [] => [[c]]
        | h :: t => (c :: h) :: t

/-- `strings.Split(s, "-")`. -/
def goSplitHyphen (s : String) : List String :=
  (splitOnChar '-' s.data).map (fun l => ⟨l⟩)

/-- The values produced by the middleware's (up to three) calls of
`uuid.New().String()`: randomness is an input of the embedding. -/
structure IdGen where
  reqUuid : String
  traceUuid : String
  spanUuid : String
deriving DecidableEq, Repr

/-- Everything one run of the middleware body produces or leaves behind. -/
structure MwResult where
  /-- Headers set on `c.Writer.Header()` by the middleware. -/
  responseHeaders : List (String × String)
  /-- `reqLogger`'s entry data (the request-scoped log context). -/
  reqLoggerData : Fields
  /-- The middleware's own timeline: log emissions around `c.Next()`. -/
  events : List Event
  /-- Post-state of the `log` receiver after the body runs. -/
  finalLogger : Logger
  /-- The response wrapper after the downstream handler ran. -/
  rw : ResponseLogger
  reqID : String
  traceID : String
  spanID : String
  traceParent : String
deriving DecidableEq, Repr

/-- `Logger.Middleware()` from part_006, run on one request.  `gen`
supplies the uuid draws, `handlerCodes` the `WriteHeader` calls the
downstream handler issues during `c.Next()`, `clientIP` and `latency`
the values of `c.ClientIP()` and `time.Since(start).String()`.  The
`c.Set` context registrations carry the same values as the returned
fields and are not modelled separately. -/
def Logger.middleware (log : Logger) (req : Request) (gen : IdGen)
    (handlerCodes : List Int) (clientIP latency : String) : MwResult :=
  -- 1. Handle request ID
  let reqID0 := headerGet req.headers "X-Request-ID"
  let reqID := if reqID0 = "" then gen.reqUuid else reqID0
  let respHeaders := upsert ([] : List (String × String)) "X-Request-ID" reqID
  -- 2. Handle W3C Trace Context (traceparent)
  let tp0 := headerGet req.headers "traceparent"
  let ids :=
    if tp0 = "" then
      let t := freshHexId gen.traceUuid 32
      let s := freshHexId gen.spanUuid 16
      (t, s, "00-" ++ t ++ "-" ++ s ++ "-01")
    else
      let parts := goSplitHyphen tp0
      if parts.length ≥ 4 then
        (parts.getD 1 "", parts.getD 2 "", tp0)
      else
        let t := freshHexId gen.traceUuid 32
        let s := freshHexId gen.spanUuid 16
        (t, s, "00-" ++ t ++ "-" ++ s ++ "-01")
  let traceID := ids.1
  let spanID := ids.2.1
  let traceParent := ids.2.2
  let respHeaders := upsert respHeaders "traceparent" traceParent
  let state := headerGet req.headers "tracestate"
  let respHeaders :=
    if state = "" then respHeaders else upsert respHeaders "tracestate" state
  -- 3. Prepare writer and contextual logger
  let rw0 := NewWriter []
  let reqLoggerData := withFields log.entry
    [("request_id", .str reqID), ("trace_id", .str traceID),
     ("span_id", .str spanID)]
  -- 4. Log start of request
  let received : LogRecord :=
    ⟨.debug, "Request Received",
      withFields reqLoggerData
        [("method", .str req.method), ("path", .str req.urlPath)]⟩
  -- c.Next(): the downstream handler writes its status codes
  let rw := rw0.writeHeaders handlerCodes
  -- 5. Log completion
  let status := rw.status
  let completed : LogRecord :=
    ⟨.info, "request completed",
      withFields reqLoggerData
        [("status", .int status), ("method", .str req.method),
         ("path", .str req.urlPath), ("clientIP", .str clientIP),
         ("latency", .str latency)]⟩
  { responseHeaders := respHeaders
    reqLoggerData := reqLoggerData
    events := [.record received, .handlerNext, .record completed]
    finalLogger := log
    rw := rw
    reqID := reqID
    traceID := traceID
    spanID := spanID
    traceParent := traceParent }

/-! ## Formatter helpers (`pkg/log/formatter`)

The formatter implementation file is not part of the source snapshot;
only its test file is (`TestExtractPrefix`, `TestNeedsQuoting`,
`TestPrefixFieldClashes`).  The three helpers below are therefore
modelled from the spec, and each is checked against every expectation
the in-repo tests pin. -/

/-- A character of the unquoted class.  The spec's §4.1 rule names the
class `[A-Za-z0-9_.-]`, but its §9 open question records that strings of
underscores are observed to need quoting, and the in-repo test
`TestNeedsQuoting` requires `needsQuoting("underscore_ok") = true`; so
the class excludes the underscore. -/
def plainChar (c : Char) : Bool :=
  ('a' ≤ c && c ≤ 'z') || ('A' ≤ c && c ≤ 'Z') ||
  ('0' ≤ c && c ≤ '9') || c = '-' || c = '.'

/-- The unquoted class as the spec's §4.1 sentence literally words it
(`[A-Za-z0-9_.-]`, underscore included); kept only to compare the
spec's wording with the behaviour the tests pin. -/
def specPlainCharWithUnderscore (c : Char) : Bool :=
  plainChar c || c = '_'

/-- Modelled from the spec: `Formatter.needsQuoting` (§4.1 item 5) — a
string needs quoting iff it contains a character outside the unquoted
class (the empty string is exempt); underscores quoted as pinned by
`TestNeedsQuoting`.  The formatter source file is absent from the
snapshot. -/
def needsQuoting (text : String) : Bool :=
  text.data.any (fun ch => ! plainChar ch)

/-- Split a character list at its first `']'`: the characters before it
and the characters after it, or `none` when there is no `']'`. -/
def splitAtFirstRBracket : List Char → Option (List Char × List Char)
  | [] => none
  | c :: cs =>
      if c = ']' then some ([], cs)
      else
        match splitAtFirstRBracket cs with
        | some (tok, rest) => some (c :: tok, rest)
        | none => none

/-- Consume a single leading space, as §4.1 item 1 words it ("a single
following space [is] consumed"). -/
def dropOneSpace : List Char → List Char
  | ' ' :: cs => cs
  | cs => cs

/-- Modelled from the spec: `extractPrefix` (§4.1 item 1) — a leading
`[`, the first `]` and a single following space are consumed when the
bracketed token is nonempty; if the bracket is empty or unterminated the
whole string stands as the message.  The formatter source file is absent
from the snapshot; behaviour agrees with `TestExtractPrefix`. -/
def extractPrefix (msg : String) : String × String :=
  match msg.data with
  | '[' :: rest =>
      match splitAtFirstRBracket rest with
      | some (tok, after) =>
          if tok = [] then ("", msg) else (⟨tok⟩, ⟨dropOneSpace after⟩)
      | none => ("", msg)
  | _ => ("", msg)

/-- The record keys reserved by the writer side (`time`, `msg`,
`level`). -/
def reservedKeys : List String := ["time", "msg", "level"]

/-- Modelled from the spec: `prefixFieldClashes` (§4.1 item 2) — each
caller field whose name collides with a reserved record key is renamed
by prefixing `fields.`; other fields are untouched.  The formatter
source file is absent from the snapshot; behaviour agrees with
`TestPrefixFieldClashes`. -/
def prefixFieldClashes (data : Fields) : Fields :=
  data.map (fun p => if p.1 ∈ reservedKeys then ("fields." ++ p.1, p.2) else p)

/-! ## Association-list map lemmas -/

theorem alookup_upsert_self {α : Type} (l : List (String × α)) (k : String)
    (v : α) : alookup k (upsert l k v) = some v := by
  induction l with
  | nil => simp [upsert, eraseKey, alookup]
  | cons p t ih =>
      by_cases h : p.1 = k
      · simpa [upsert, eraseKey, h] using ih
      · simpa [upsert, eraseKey, alookup, h] using ih

theorem alookup_upsert_ne {α : Type} (l : List (String × α)) (k k' : String)
    (v : α) (h : k ≠ k') :
    alookup k (upsert l k' v) = alookup k l := by
  induction l with
  | nil => simp [upsert, eraseKey, alookup, Ne.symm h]
  | cons p t ih =>
      by_cases hp : p.1 = k'
      · have hpk : p.1 ≠ k := by rw [hp]; exact Ne.symm h
        simpa [upsert, eraseKey, alookup, hp, hpk, Ne.symm h] using ih
      · by_cases hk : p.1 = k
        · simp [upsert, eraseKey, alookup, hp, hk, h]
        · simpa [upsert, eraseKey, alookup, hp, hk, h] using ih

theorem getField_upsert_self (d : Fields) (k : String) (v : FieldValue) :
    getField (upsert d k v) k = some v :=
  alookup_upsert_self d k v

theorem getField_upsert_ne (d : Fields) (k k' : String) (v : FieldValue)
    (h : k ≠ k') : getField (upsert d k' v) k = getField d k :=
  alookup_upsert_ne d k k' v h

/-! ## Claims C9, C4: the response wrapper -/

/-- C9: a `ResponseLogger` fresh from `NewWriter`, on which `WriteHeader`
has never been called, reports status 200 (`http.StatusOK`) and has
forwarded nothing to the wrapped writer; consequently a middleware run
whose handler never sets a status observes final status 200. -/
theorem newWriter_status_200 (w : List Int) (log : Logger) (req : Request)
    (gen : IdGen) (ip lat : String) :
    (NewWriter w).status = 200 ∧ (NewWriter w).underlying = w ∧
    (Logger.middleware log req gen [] ip lat).rw.status = 200 :=
  ⟨rfl, rfl, rfl⟩

/-- C4 counterexample: the wrapper does NOT keep the first status set —
after `WriteHeader(201); WriteHeader(500)` a `Status()` call returns
500, not the first value 201. -/
theorem writeHeader_keeps_last_not_first_cex :
    ((NewWriter []).writeHeaders [201, 500]).status = 500 ∧
    ¬ ((NewWriter []).writeHeaders [201, 500]).status = 201 := by
  decide

/-- C4 (amended): the wrapper records the most recently set status value
(the last code of the `WriteHeader` sequence, or the initial 200 when
the sequence is empty) and forwards every intercepted call unchanged, in
order, to the underlying sink; in particular a single `WriteHeader(201)`
makes `Status()` return 201. -/
theorem writeHeader_records_last_and_forwards (w : ResponseLogger)
    (codes : List Int) :
    (w.writeHeaders codes).status = codes.getLastD w.status ∧
    (w.writeHeaders codes).underlying = w.underlying ++ codes ∧
    (w.writeHeader 201).status = 201 := by
  refine ⟨?_, ?_, rfl⟩
  · induction codes generalizing w with
    | nil => rfl
    | cons c cs ih =>
        rw [List.getLastD_cons]
        exact ih (w.writeHeader c)
  · induction codes generalizing w with
    | nil => simp [ResponseLogger.writeHeaders]
    | cons c cs ih =>
        simpa [ResponseLogger.writeHeader, List.append_assoc] using
          ih (w.writeHeader c)

/-! ## Claims C10, C1: Format and the shared base context -/

/-- C10: `Logger.Format` with a nil request returns without touching the
logger: the entry's field set is completely unchanged. -/
theorem format_nil_request_unchanged (l : Logger) :
    l.format none = l := rfl

/-- A concrete request used in counterexamples and witnesses. -/
def cReq : Request :=
  { method := "GET", urlPath := "/x", remoteAddr := "1.2.3.4:5",
    contentLength := 7, headers := [("User-Agent", "curl")] }

/-- C1 counterexample: one `Format` derivation DOES change the shared
logger's field set — afterwards the logger carries a `method` field and
no longer contains exactly its original fields (service, version). -/
theorem format_extends_shared_logger_cex :
    getField ((Logger.new "svc" "1.0").format (some cReq)).entry "method" =
      some (.str "GET") ∧
    fieldKeys ((Logger.new "svc" "1.0").format (some cReq)).entry ≠
      ["service", "version"] := by
  decide

/-- C1 (amended): the middleware's request-context derivation
(`Entry.WithFields`) never changes the base logger: after any number of
middleware runs the base logger still contains exactly its original
fields (service, version), no per-request field is visible to it, and a
later request's middleware run from the post-state is identical to one
from the fresh base (so no field added for one request is visible to
another request's derived context) — but `Logger.Format`, which the
middleware does not call, reassigns the logger's entry, so a `Format`
call does add the request fields (e.g. `method`) to the shared logger's
field set. -/
theorem middleware_preserves_base_context (name ver : String)
    (req req' : Request) (gen gen' : IdGen) (codes codes' : List Int)
    (ip ip' lat lat' : String) (r : Request) :
    (Logger.middleware (Logger.new name ver) req gen codes ip lat).finalLogger
        = Logger.new name ver ∧
    fieldKeys (Logger.new name ver).entry = ["service", "version"] ∧
    getField (Logger.new name ver).entry "request_id" = none ∧
    getField (Logger.new name ver).entry "method" = none ∧
    getField (Logger.middleware (Logger.new name ver) req gen codes ip
        lat).reqLoggerData "service" = some (.str name) ∧
    getField (Logger.middleware (Logger.new name ver) req gen codes ip
        lat).reqLoggerData "version" = some (.str ver) ∧
    Logger.middleware
        (Logger.middleware (Logger.new name ver) req gen codes ip
          lat).finalLogger req' gen' codes' ip' lat'
      = Logger.middleware (Logger.new name ver) req' gen' codes' ip' lat' ∧
    getField ((Logger.new name ver).format (some r)).entry "method" =
      some (.str r.method) := by
  refine ⟨rfl, rfl, rfl, rfl, ?_, ?_, rfl, ?_⟩ <;> rfl

/-! ## Claim C5: the two per-request log records -/

/-- C5: every middleware run emits exactly two of its own log records,
in order — a debug "Request Received" record before the downstream
handler runs (`c.Next()`) and an info "request completed" record after
it returns — and the two records carry the same `request_id`,
`trace_id` and `span_id` values. -/
theorem middleware_two_ordered_records (log : Logger) (req : Request)
    (gen : IdGen) (codes : List Int) (ip lat : String) :
    ∃ d1 d2 : Fields,
      (Logger.middleware log req gen codes ip lat).events =
        [.record ⟨.debug, "Request Received", d1⟩, .handlerNext,
         .record ⟨.info, "request completed", d2⟩] ∧
      getField d1 "request_id" = getField d2 "request_id" ∧
      getField d1 "trace_id" = getField d2 "trace_id" ∧
      getField d1 "span_id" = getField d2 "span_id" ∧
      getField d1 "request_id" =
        some (.str (Logger.middleware log req gen codes ip lat).reqID) ∧
      getField d1 "trace_id" =
        some (.str (Logger.middleware log req gen codes ip lat).traceID) ∧
      getField d1 "span_id" =
        some (.str (Logger.middleware log req gen codes ip lat).spanID) := by
  refine ⟨_, _, rfl, ?_, ?_, ?_, ?_, ?_, ?_⟩ <;>
    simp [Logger.middleware, withFields, getField_upsert_ne,
      getField_upsert_self]

/-! ## Claim C3: the three response headers -/

/-- C3: the response carries an `X-Request-ID` header — echoing the
inbound value when present and non-empty, otherwise the freshly
generated id — and a `traceparent` header; a `tracestate` header is set
iff a non-empty `tracestate` came in, and then it echoes the inbound
value. -/
theorem response_correlation_headers (log : Logger) (req : Request)
    (gen : IdGen) (codes : List Int) (ip lat : String) :
    alookup "X-Request-ID"
        (Logger.middleware log req gen codes ip lat).responseHeaders =
      some (Logger.middleware log req gen codes ip lat).reqID ∧
    (headerGet req.headers "X-Request-ID" ≠ "" →
      (Logger.middleware log req gen codes ip lat).reqID =
        headerGet req.headers "X-Request-ID") ∧
    (headerGet req.headers "X-Request-ID" = "" →
      (Logger.middleware log req gen codes ip lat).reqID = gen.reqUuid) ∧
    alookup "traceparent"
        (Logger.middleware log req gen codes ip lat).responseHeaders =
      some (Logger.middleware log req gen codes ip lat).traceParent ∧
    ((alookup "tracestate"
        (Logger.middleware log req gen codes ip lat).responseHeaders).isSome
      ↔ headerGet req.headers "tracestate" ≠ "") ∧
    (headerGet req.headers "tracestate" ≠ "" →
      alookup "tracestate"
          (Logger.middleware log req gen codes ip lat).responseHeaders =
        some (headerGet req.headers "tracestate")) := by
  by_cases hst : headerGet req.headers "tracestate" = "" <;>
    by_cases hid : headerGet req.headers "X-Request-ID" = "" <;>
      simp [Logger.middleware, hst, hid, alookup_upsert_self,
        alookup_upsert_ne, alookup]

/-- C3 witness: a concrete request with a non-empty inbound
`X-Request-ID` and `tracestate` is echoed; the implications' premises
are discharged at that input. -/
theorem response_correlation_headers_witness :
    alookup "tracestate"
        (Logger.middleware (Logger.new "svc" "1.0")
          ⟨"GET", "/x", "ip:1", 7,
            [("X-Request-ID", "abc"), ("tracestate", "vendor=1")]⟩
          ⟨"u1", "u2", "u3"⟩ [] "ip" "0s").responseHeaders =
      some "vendor=1" :=
  ((response_correlation_headers (Logger.new "svc" "1.0")
      ⟨"GET", "/x", "ip:1", 7,
        [("X-Request-ID", "abc"), ("tracestate", "vendor=1")]⟩
      ⟨"u1", "u2", "u3"⟩ [] "ip" "0s").2.2.2.2.2) (by decide)

/-! ## Claim C2: trace continuation and fresh identity generation -/

theorem isHexChar_ne_hyphen {c : Char} (h : isHexChar c = true) :
    c ≠ '-' := by
  intro hEq
  subst hEq
  exact absurd h (by decide)

theorem filter_hex_eq_self (l : List Char)
    (h : ∀ ch ∈ l, isHexChar ch = true) :
    l.filter (fun c => c ≠ '-') = l :=
  List.filter_eq_self.mpr
    (fun ch hch => decide_eq_true (isHexChar_ne_hyphen (h ch hch)))

theorem goStripHyphens_uuid {u : String} (h : IsUuidString u) :
    (goStripHyphens u).data.length = 32 ∧
      ∀ ch ∈ (goStripHyphens u).data, isHexChar ch = true := by
  obtain ⟨a, b, c, d, e, ha, hb, hc, hd, he, hhex, hdata⟩ := h
  have hA := filter_hex_eq_self a (fun ch hch => hhex ch (by simp [hch]))
  have hB := filter_hex_eq_self b (fun ch hch => hhex ch (by simp [hch]))
  have hC := filter_hex_eq_self c (fun ch hch => hhex ch (by simp [hch]))
  have hD := filter_hex_eq_self d (fun ch hch => hhex ch (by simp [hch]))
  have hE := filter_hex_eq_self e (fun ch hch => hhex ch (by simp [hch]))
  simp only [ne_eq, decide_not] at hA hB hC hD hE
  have hfil : (goStripHyphens u).data = a ++ b ++ c ++ d ++ e := by
    show (u.data.filter (fun ch => ch ≠ '-')) = a ++ b ++ c ++ d ++ e
    rw [hdata]
    simp only [List.filter_append, List.filter_cons]
    simp [hA, hB, hC, hD, hE]
  constructor
  · rw [hfil]
    simp [ha, hb, hc, hd, he]
  · rw [hfil]
    intro ch hch
    exact hhex ch (by simpa using hch)

theorem freshHexId_uuid {u : String} (h : IsUuidString u) (n : Nat)
    (hn : n ≤ 32) :
    (freshHexId u n).length = n ∧
      ∀ ch ∈ (freshHexId u n).data, isHexChar ch = true := by
  obtain ⟨hlen, hhex⟩ := goStripHyphens_uuid h
  constructor
  · show ((goStripHyphens u).data.take n).length = n
    simp [List.length_take, hlen]
    omega
  · intro ch hch
    exact hhex ch (List.take_subset _ _ hch)

/-- C2: if the inbound `traceparent` splits into at least 4
hyphen-delimited fields, the request's trace id and span id are fields 2
and 3 verbatim; if the header is absent or has fewer than 4 fields, the
middleware never errors and instead generates a well-formed fresh
identity — a 32-hex-char trace id and a 16-hex-char span id — with
`traceparent` reconstructed as `00-<trace_id>-<span_id>-01`. -/
theorem traceparent_continue_or_start (log : Logger) (req : Request)
    (gen : IdGen) (codes : List Int) (ip lat : String)
    (ht : IsUuidString gen.traceUuid) (hs : IsUuidString gen.spanUuid) :
    ((goSplitHyphen (headerGet req.headers "traceparent")).length ≥ 4 →
      (Logger.middleware log req gen codes ip lat).traceID =
        (goSplitHyphen (headerGet req.headers "traceparent")).getD 1 "" ∧
      (Logger.middleware log req gen codes ip lat).spanID =
        (goSplitHyphen (headerGet req.headers "traceparent")).getD 2 "") ∧
    ((headerGet req.headers "traceparent" = "" ∨
        (goSplitHyphen (headerGet req.headers "traceparent")).length < 4) →
      (Logger.middleware log req gen codes ip lat).traceID.length = 32 ∧
      (∀ ch ∈ (Logger.middleware log req gen codes ip lat).traceID.data,
        isHexChar ch = true) ∧
      (Logger.middleware log req gen codes ip lat).spanID.length = 16 ∧
      (∀ ch ∈ (Logger.middleware log req gen codes ip lat).spanID.data,
        isHexChar ch = true) ∧
      (Logger.middleware log req gen codes ip lat).traceParent =
        "00-" ++ (Logger.middleware log req gen codes ip lat).traceID ++
          "-" ++ (Logger.middleware log req gen codes ip lat).spanID ++
          "-01") := by
  have hT := freshHexId_uuid ht 32 (by decide)
  have hS := freshHexId_uuid hs 16 (by decide)
  by_cases htp : headerGet req.headers "traceparent" = ""
  · constructor
    · intro h4
      rw [htp] at h4
      exact absurd h4 (by decide)
    · intro _
      refine ⟨?_, ?_, ?_, ?_, ?_⟩
      · simp [Logger.middleware, htp, hT.1]
      · simpa [Logger.middleware, htp] using hT.2
      · simp [Logger.middleware, htp, hS.1]
      · simpa [Logger.middleware, htp] using hS.2
      · simp [Logger.middleware, htp]
  · by_cases h4 : 4 ≤ (goSplitHyphen (headerGet req.headers
        "traceparent")).length
    · constructor
      · intro _
        constructor <;> simp [Logger.middleware, htp, h4]
      · intro hlow
        rcases hlow with hlow | hlow
        · exact absurd hlow htp
        · omega
    · constructor
      · intro hge
        exact absurd hge h4
      · intro _
        refine ⟨?_, ?_, ?_, ?_, ?_⟩
        · simp [Logger.middleware, htp, h4, hT.1]
        · simpa [Logger.middleware, htp, h4] using hT.2
        · simp [Logger.middleware, htp, h4, hS.1]
        · simpa [Logger.middleware, htp, h4] using hS.2
        · simp [Logger.middleware, htp, h4]

/-- A concrete well-formed uuid string, used by witnesses. -/
def uuidEx : String := "123e4567-e89b-12d3-a456-426614174000"

theorem uuidEx_isUuid : IsUuidString uuidEx :=
  ⟨"123e4567".data, "e89b".data, "12d3".data, "a456".data,
   "426614174000".data, by decide, by decide, by decide, by decide,
   by decide, by decide, by decide⟩

/-- C2 witness: for a request with no `traceparent` header and concrete
well-formed uuid draws, the generated trace id has 32 characters. -/
theorem traceparent_continue_or_start_witness :
    IsUuidString uuidEx ∧
    (Logger.middleware (Logger.new "svc" "1.0")
        ⟨"GET", "/x", "ip:1", 0, []⟩ ⟨"u", uuidEx, uuidEx⟩ [] "ip"
        "0s").traceID.length = 32 :=
  ⟨uuidEx_isUuid,
   ((traceparent_continue_or_start (Logger.new "svc" "1.0")
        ⟨"GET", "/x", "ip:1", 0, []⟩ ⟨"u", uuidEx, uuidEx⟩ [] "ip" "0s"
        uuidEx_isUuid uuidEx_isUuid).2 (Or.inl rfl)).1⟩

/-! ## Claim C6: the quoting rule -/

/-- C6 counterexample: `"underscore_ok"` consists only of characters of
the claim's class `[A-Za-z0-9_.-]`, yet `needsQuoting` returns true for
it, as the repository's own `TestNeedsQuoting` requires. -/
theorem needsQuoting_underscore_cex :
    (∀ c ∈ "underscore_ok".data, specPlainCharWithUnderscore c = true) ∧
    needsQuoting "underscore_ok" = true := by
  decide

/-- C6 (amended): `needsQuoting` returns false exactly when the string
consists only of characters in `[A-Za-z0-9.-]` — underscore excluded —
(the empty string being exempt and unquoted), and true for any string
containing a character outside that class; `"simple"`, `"dash-ok"` and
`"dot.ok"` are unquoted while `"with space"`, `"special!"` and
`"underscore_ok"` are quoted. -/
theorem needsQuoting_iff_outside_class (s : String) :
    (needsQuoting s = false ↔ ∀ c ∈ s.data, plainChar c = true) ∧
    needsQuoting "" = false ∧
    needsQuoting "simple" = false ∧
    needsQuoting "dash-ok" = false ∧
    needsQuoting "dot.ok" = false ∧
    needsQuoting "with space" = true ∧
    needsQuoting "special!" = true ∧
    needsQuoting "underscore_ok" = true := by
  refine ⟨?_, by decide, by decide, by decide, by decide, by decide,
    by decide, by decide⟩
  simp [needsQuoting]

/-- C6 witness: the amended rule evaluated at a concrete string. -/
theorem needsQuoting_iff_outside_class_witness :
    needsQuoting "" = false :=
  (needsQuoting_iff_outside_class "").2.1

/-! ## Claim C7: prefix extraction -/

theorem splitAtFirstRBracket_eq_none (l : List Char) (h : ']' ∉ l) :
    splitAtFirstRBracket l = none := by
  induction l with
  | nil => rfl
  | cons c cs ih =>
      have hc : ¬ c = ']' := fun hEq => h (hEq ▸ List.mem_cons_self c cs)
      have hcs : ']' ∉ cs := fun hm => h (List.mem_cons_of_mem c hm)
      simp [splitAtFirstRBracket, hc, ih hcs]

/-- C7: `extractPrefix` splits a message beginning with a nonempty
bracketed token into the token and the remainder, and leaves every other
message unchanged with an empty prefix: the three pinned examples hold,
any message not starting with `[` is unchanged, and an unterminated or
empty bracket leaves the whole string as the message. -/
theorem extractPrefix_spec :
    extractPrefix "[prefix] actual message" = ("prefix", "actual message") ∧
    extractPrefix "no prefix message" = ("", "no prefix message") ∧
    extractPrefix "[p]msg" = ("p", "msg") ∧
    (∀ s : String, s.data.head? ≠ some '[' → extractPrefix s = ("", s)) ∧
    (∀ s : String, ∀ rest : List Char, s.data = '[' :: rest →
      ']' ∉ rest → extractPrefix s = ("", s)) ∧
    (∀ s : String, ∀ rest : List Char, s.data = '[' :: ']' :: rest →
      extractPrefix s = ("", s)) := by
  refine ⟨by decide, by decide, by decide, ?_, ?_, ?_⟩
  · intro s h
    unfold extractPrefix
    split
    · rename_i rest heq
      simp [heq] at h
    · rfl
  · intro s rest hdata hnotin
    unfold extractPrefix
    split
    · rename_i rest' heq
      rw [hdata] at heq
      cases heq
      rw [splitAtFirstRBracket_eq_none rest hnotin]
    · rfl
  · intro s rest hdata
    unfold extractPrefix
    split
    · rename_i rest' heq
      rw [hdata] at heq
      cases heq
      simp [splitAtFirstRBracket]
    · rfl

/-- C7 witness: the general no-bracket clause applied at a concrete
message. -/
theorem extractPrefix_spec_witness :
    extractPrefix "plain" = ("", "plain") :=
  extractPrefix_spec.2.2.2.1 "plain" (by decide)

/-! ## Claim C8: reserved-key clash resolution -/

theorem fields_prefix_ne {x k : String} (hk : k.length ≤ 5) :
    "fields." ++ x ≠ k := by
  intro h
  have hlen := congrArg String.length h
  have h7 : ("fields." ++ x).length = 7 + x.length := by
    show ("fields." ++ x).data.length = 7 + x.data.length
    have : ("fields." ++ x).data = "fields.".data ++ x.data := rfl
    simp [this]
    omega
  omega

theorem getField_prefixFieldClashes_reserved (data : Fields) (k : String)
    (hk : k ∈ reservedKeys) : getField (prefixFieldClashes data) k = none := by
  have hk5 : k.length ≤ 5 := by
    simp [reservedKeys] at hk
    rcases hk with rfl | rfl | rfl <;> decide
  induction data with
  | nil => rfl
  | cons p t ih =>
      by_cases hp : p.1 ∈ reservedKeys
      · have hne : ("fields." ++ p.1) ≠ k := fields_prefix_ne hk5
        show alookup k _ = none
        simpa [prefixFieldClashes, alookup, hp, hne] using ih
      · have hne : p.1 ≠ k := fun hEq => hp (hEq ▸ hk)
        show alookup k _ = none
        simpa [prefixFieldClashes, alookup, hp, hne] using ih

/-- C8: clash resolution renames each field colliding with a reserved
record key (`time`, `msg`, `level`) by prefixing `fields.` — for the
input `{time: now, msg: hi, level: warn}` the result carries
`fields.time`, `fields.msg`, `fields.level` with the original values —
and in general no reserved bare name remains as a caller-controlled
field afterwards. -/
theorem prefixFieldClashes_spec (data : Fields) (k : String) :
    getField (prefixFieldClashes
        [("time", .str "now"), ("msg", .str "hi"), ("level", .str "warn")])
        "fields.time" = some (.str "now") ∧
    getField (prefixFieldClashes
        [("time", .str "now"), ("msg", .str "hi"), ("level", .str "warn")])
        "fields.msg" = some (.str "hi") ∧
    getField (prefixFieldClashes
        [("time", .str "now"), ("msg", .str "hi"), ("level", .str "warn")])
        "fields.level" = some (.str "warn") ∧
    getField (prefixFieldClashes
        [("time", .str "now"), ("msg", .str "hi"), ("level", .str "warn")])
        "time" = none ∧
    getField (prefixFieldClashes
        [("time", .str "now"), ("msg", .str "hi"), ("level", .str "warn")])
        "msg" = none ∧
    getField (prefixFieldClashes
        [("time", .str "now"), ("msg", .str "hi"), ("level", .str "warn")])
        "level" = none ∧
    (k ∈ reservedKeys → getField (prefixFieldClashes data) k = none) := by
  refine ⟨by decide, by decide, by decide, by decide, by decide, by decide,
    fun hk => getField_prefixFieldClashes_reserved data k hk⟩

/-- C8 witness: the general clause applied to a concrete field map and
reserved key. -/
theorem prefixFieldClashes_spec_witness :
    getField (prefixFieldClashes [("time", .str "t"), ("other", .str "o")])
      "time" = none :=
  (prefixFieldClashes_spec [("time", .str "t"), ("other", .str "o")]
      "time").2.2.2.2.2.2 (by decide)

end HttpCommon
